import Mathlib

set_option autoImplicit false

/-
Shallow embedding of the risk-tiered confirmation engine in
src/claude-agent/src/agent/confirmations.py.

Modelling conventions:
- `datetime.utcnow()` is an abstract instant `now : Nat`, passed to each
  operation at the point the source calls the clock (a single call of a
  store method uses one instant).
- `secrets.token_urlsafe(…)` is an environment-supplied fresh string
  (`genId` for action ids, `freshToken` for confirmation tokens).
- The Python dict `_actions` is an insertion-ordered association list with
  unique keys; `dictGet`/`dictSet`/`dictDel` mirror `d.get`, `d[k] = v`
  (in-place replacement on an existing key) and `del d[k]`.
- `tool_args` is the opaque argument bag; `dict.copy()` is the identity on
  the immutable model.
- The Duo round trip is an environment answer `DuoResponse`; only
  `duo_client is not None` matters to the store, kept as `duo_configured`.
- `confirm` is an async method that awaits the Duo push; it is embedded as
  `confirmCheck` (everything before the `await`) composed with
  `confirmResume` (everything after), so that event-loop interleavings at
  the await point can be expressed by running other operations in between.
-/

namespace NConf

/-- Risk tiers of a stored pending action (the `Literal` in the source). -/
inductive RiskLevel where
  | moderate
  | dangerous
  | critical
deriving DecidableEq

/-- Python truthiness of an optional string: `if x:` holds iff `x` is neither None nor the empty string. -/
def pyTruthy : Option String → Bool
  | none => false
  | some s => s != ""

/-- Record `PendingAction` of the source, with times as abstract instants. -/
structure PendingAction where
  action_id : String
  tool_name : String
  tool_args : List (String × String)
  user_id : String
  channel_id : String
  thread_ts : String
  message_ts : String
  risk_level : RiskLevel
  description : String
  impact : String
  created_at : Nat
  expires_at : Nat
  confirm_token : Option String := none
  duo_approved : Bool := false
  duo_txid : Option String := none
deriving DecidableEq

/-- Environment answer to the Duo push round trip: either the provider
returned a result dict (its `result` string and transaction id), or an
exception was raised somewhere in the call. -/
inductive DuoResponse where
  | ok (result : String) (txid : Option String)
  | error
deriving DecidableEq

namespace DuoAuthClient

/-- Embedding of `DuoAuthClient.send_push`: `(approved, txid)`; approved
only on an explicit "allow" result; any exception resolves fail-closed to
`(false, none)`. -/
def send_push : DuoResponse → Bool × Option String
  | .ok r txid => if r = "allow" then (true, txid) else (false, none)
  | .error => (false, none)

end DuoAuthClient

/-- Entries of the Python dict `_actions`, in insertion order. -/
abbrev Actions := List (String × PendingAction)

/-- Python `d.get(k)`: value of the first (in a dict: unique) entry with the key. -/
def dictGet : Actions → String → Option PendingAction
  | [], _ => none
  | (k, v) :: rest, key => if k = key then some v else dictGet rest key

/-- Python `d[k] = v`: replaces the value in place when the key is present, else appends. -/
def dictSet : Actions → String → PendingAction → Actions
  | [], key, v => [(key, v)]
  | (k, w) :: rest, key, v =>
    if k = key then (key, v) :: rest else (k, w) :: dictSet rest key v

/-- Python `del d[k]`: removes the first (in a dict: unique) entry with the key. -/
def dictDel : Actions → String → Actions
  | [], _ => []
  | (k, w) :: rest, key => if k = key then rest else (k, w) :: dictDel rest key

/-- State of `ConfirmationStore`: the action map, the TTL, and whether a
Duo client was supplied at construction. -/
structure ConfirmationStore where
  actions : Actions
  ttl : Nat
  duo_configured : Bool
deriving DecidableEq

namespace ConfirmationStore

/-- Embedding of `cleanup_expired`: drops every entry with `expires_at < now`, returns the count dropped. -/
def cleanup_expired (now : Nat) (s : ConfirmationStore) : ConfirmationStore × Nat :=
  let keep := s.actions.filter (fun p => !(decide (p.2.expires_at < now)))
  ({ s with actions := keep }, s.actions.length - keep.length)

/-- Embedding of `get`: lazily evicts and reports None when `now > expires_at`. -/
def get (now : Nat) (s : ConfirmationStore) (action_id : String) :
    ConfirmationStore × Option PendingAction :=
  match dictGet s.actions action_id with
  | none => (s, none)
  | some a =>
    if a.expires_at < now then ({ s with actions := dictDel s.actions action_id }, none)
    else (s, some a)

/-- Embedding of `requires_duo`: a Duo client is configured and the tier is dangerous or critical. -/
def requires_duo (s : ConfirmationStore) (risk_level : RiskLevel) : Bool :=
  s.duo_configured &&
    decide (risk_level = RiskLevel.dangerous ∨ risk_level = RiskLevel.critical)

/-- Embedding of `create`: sweeps expired entries, then inserts a new action
under the freshly generated id `genId` (the `secrets.token_urlsafe(16)`
value), with `expires_at = now + ttl`. -/
def create (now : Nat) (genId : String) (s : ConfirmationStore)
    (tool_name : String) (tool_args : List (String × String))
    (user_id channel_id thread_ts message_ts : String)
    (risk_level : RiskLevel) (description impact : String) :
    ConfirmationStore × PendingAction :=
  let s1 := (cleanup_expired now s).1
  let action : PendingAction :=
    { action_id := genId, tool_name := tool_name, tool_args := tool_args,
      user_id := user_id, channel_id := channel_id, thread_ts := thread_ts,
      message_ts := message_ts, risk_level := risk_level,
      description := description, impact := impact,
      created_at := now, expires_at := now + s.ttl }
  ({ s1 with actions := dictSet s1.actions genId action }, action)

/-- Outcome of the part of `confirm` that runs before the Duo `await`. -/
inductive CheckResult where
  | err (msg : String)
  | proceed (a : PendingAction) (needsDuo : Bool)
deriving DecidableEq

/-- Embedding of `confirm` up to the `await`: the `get`, the requester
check, the already-confirmed guard, and the `requires_duo` decision. -/
def confirmCheck (now : Nat) (s : ConfirmationStore) (action_id user_id : String) :
    ConfirmationStore × CheckResult :=
  match get now s action_id with
  | (s1, none) => (s1, .err "Action expired or not found.")
  | (s1, some a) =>
    if a.user_id ≠ user_id then
      (s1, .err "Only the original requester can confirm this action.")
    else if pyTruthy a.confirm_token then
      (s1, .err "Action already confirmed.")
    else
      (s1, .proceed a (requires_duo s1 a.risk_level))

/-- Embedding of `confirm` after the `await`, given the push outcome: on a
non-approved push it returns the Duo error without touching the store; on
approval it sets `duo_approved`, `duo_txid` and mints `confirm_token` on
the action object (visible in the store exactly when the id is still
mapped), and returns the token — with no re-check of expiry or presence. -/
def confirmResume : Bool × Option String → String → ConfirmationStore → String →
    ConfirmationStore × Option String × Option String
  | (false, _), _, s, _ => (s, none, some "Duo MFA verification failed or was denied.")
  | (true, txid), freshToken, s, action_id =>
    match dictGet s.actions action_id with
    | some a =>
      let a1 := { a with duo_approved := true, duo_txid := txid,
                         confirm_token := some freshToken }
      ({ s with actions := dictSet s.actions action_id a1 }, some freshToken, none)
    | none => (s, some freshToken, none)

/-- Embedding of `confirm` run without interference at the await point:
`confirmCheck`, then either the Duo round trip followed by `confirmResume`,
or (no step-up) direct minting of the token (`freshToken` stands for the
`secrets.token_urlsafe(32)` value). -/
def confirm (now : Nat) (duoResp : DuoResponse) (freshToken : String)
    (s : ConfirmationStore) (action_id user_id : String) :
    ConfirmationStore × Option String × Option String :=
  match confirmCheck now s action_id user_id with
  | (s1, .err m) => (s1, none, some m)
  | (s1, .proceed a needsDuo) =>
    if needsDuo then
      confirmResume (DuoAuthClient.send_push duoResp) freshToken s1 action_id
    else
      let a1 := { a with confirm_token := some freshToken }
      ({ s1 with actions := dictSet s1.actions action_id a1 }, some freshToken, none)

/-- Scan of `validate_token`: first entry (in insertion order) whose
`(confirm_token, tool_name)` matches, with its id and `tool_args`. -/
def scanMatch (tool_name token : String) : Actions → Option (String × List (String × String))
  | [] => none
  | (id, a) :: rest =>
    if a.confirm_token = some token ∧ a.tool_name = tool_name then some (id, a.tool_args)
    else scanMatch tool_name token rest

/-- Embedding of `validate_token`: consumes the first matching action
(deleting it from the map) and returns a copy of its `tool_args`; None when
no action matches. Note the source checks no expiry here. -/
def validate_token (s : ConfirmationStore) (tool_name token : String) :
    ConfirmationStore × Option (List (String × String)) :=
  match scanMatch tool_name token s.actions with
  | some (id, args) => ({ s with actions := dictDel s.actions id }, some args)
  | none => (s, none)

/-- Embedding of `deny`: unconditionally removes the entry when present, reports whether it did. -/
def deny (s : ConfirmationStore) (action_id : String) : ConfirmationStore × Bool :=
  match dictGet s.actions action_id with
  | some _ => ({ s with actions := dictDel s.actions action_id }, true)
  | none => (s, false)

/-- Embedding of `list_pending`: sweeps, then lists values in insertion
order, filtered by the optional (truthy) user id. -/
def list_pending (now : Nat) (s : ConfirmationStore) (user_id : Option String) :
    ConfirmationStore × List PendingAction :=
  let s1 := (cleanup_expired now s).1
  let all := s1.actions.map Prod.snd
  let filtered :=
    match user_id with
    | some u => if u = "" then all else all.filter (fun a => decide (a.user_id = u))
    | none => all
  (s1, filtered)

end ConfirmationStore

/-- Number of entries holding a given confirmation token. -/
def tokCount (items : Actions) (token : String) : Nat :=
  (items.filter (fun p => decide (p.2.confirm_token = some token))).length

/-- Action record built by `create`, named so it can appear in statements. -/
def mkAction (now : Nat) (genId toolN : String) (args : List (String × String))
    (uid ch th ms : String) (rl : RiskLevel) (desc imp : String) (ttl : Nat) : PendingAction :=
  { action_id := genId, tool_name := toolN, tool_args := args,
    user_id := uid, channel_id := ch, thread_ts := th, message_ts := ms,
    risk_level := rl, description := desc, impact := imp,
    created_at := now, expires_at := now + ttl }

/-- Action after the approved-push mutation inside `confirm`. -/
def duoStamped (a : PendingAction) (txid : Option String) (tok : String) : PendingAction :=
  { a with duo_approved := true, duo_txid := txid, confirm_token := some tok }

/-- Action after the confirmation-only minting inside `confirm`. -/
def tokStamped (a : PendingAction) (tok : String) : PendingAction :=
  { a with confirm_token := some tok }

/-- Fixture: a dangerous action "A" of user "u" for tool "t", created at 0, expiring at 10. -/
def wAct : PendingAction :=
  { action_id := "A", tool_name := "t", tool_args := [("k", "v")],
    user_id := "u", channel_id := "c", thread_ts := "h", message_ts := "m",
    risk_level := .dangerous, description := "d", impact := "i",
    created_at := 0, expires_at := 10 }

/-- Fixture: `wAct` with a minted confirmation token. -/
def wActTok : PendingAction := { wAct with confirm_token := some "tok" }

/-- Fixture store (Duo configured) holding the unconfirmed action. -/
def wStore : ConfirmationStore := { actions := [("A", wAct)], ttl := 5, duo_configured := true }

/-- Fixture store (Duo configured) holding the already-confirmed action. -/
def wStoreTok : ConfirmationStore := { actions := [("A", wActTok)], ttl := 5, duo_configured := true }

/-- Fixture store (Duo configured) holding nothing. -/
def wEmptyTok : ConfirmationStore := { actions := [], ttl := 5, duo_configured := true }

/-- Fixture store with no Duo client, holding the unconfirmed dangerous action. -/
def wStoreNoDuo : ConfirmationStore := { actions := [("A", wAct)], ttl := 5, duo_configured := false }

/-- Fixture: the moderate action created in the round-trip witness. -/
def wModAct : PendingAction := mkAction 0 "A" "t" [("k", "v")] "u" "c" "h" "m" .moderate "d" "i" 5

/-- Fixture: `wModAct` once confirmed. -/
def wModActTok : PendingAction := { wModAct with confirm_token := some "tok" }

/-- Fixture store after creating the moderate action with no Duo client. -/
def wModStore1 : ConfirmationStore := { actions := [("A", wModAct)], ttl := 5, duo_configured := false }

/-- Fixture store after confirming the moderate action. -/
def wModStore2 : ConfirmationStore := { actions := [("A", wModActTok)], ttl := 5, duo_configured := false }

theorem dictGet_none_iff (items : Actions) (key : String) :
    dictGet items key = none ↔ key ∉ items.map Prod.fst := by
  induction items with
  | nil => simp [dictGet]
  | cons q rest ih =>
    obtain ⟨k, v⟩ := q
    by_cases hk : k = key
    · subst hk
      simp [dictGet]
    · have hk2 : ¬ key = k := fun h => hk h.symm
      simp only [dictGet, if_neg hk, ih, List.map_cons, List.mem_cons, not_or]
      simp [hk2]

theorem dictGet_mem {items : Actions} {key : String} {v : PendingAction}
    (h : dictGet items key = some v) : (key, v) ∈ items := by
  induction items with
  | nil => simp [dictGet] at h
  | cons q rest ih =>
    obtain ⟨k, w⟩ := q
    by_cases hk : k = key
    · subst hk
      simp [dictGet] at h
      simp [h]
    · simp [dictGet, hk] at h
      exact List.mem_cons_of_mem _ (ih h)

theorem dictGet_dictSet_self (items : Actions) (key : String) (v : PendingAction) :
    dictGet (dictSet items key v) key = some v := by
  induction items with
  | nil => simp [dictSet, dictGet]
  | cons q rest ih =>
    obtain ⟨k, w⟩ := q
    by_cases hk : k = key
    · simp [dictSet, hk, dictGet]
    · simp [dictSet, hk, dictGet, ih]

theorem mem_dictSet_ne {items : Actions} {key : String} {v : PendingAction}
    {p : String × PendingAction}
    (hmem : p ∈ dictSet items key v) (hne : p.1 ≠ key) : p ∈ items := by
  induction items with
  | nil =>
    simp [dictSet] at hmem
    exact absurd (by simp [hmem]) hne
  | cons q rest ih =>
    obtain ⟨k, w⟩ := q
    by_cases hk : k = key
    · subst hk
      simp [dictSet] at hmem
      rcases hmem with h1 | h2
      · exact absurd (by simp [h1]) hne
      · exact List.mem_cons_of_mem _ h2
    · simp [dictSet, hk] at hmem
      rcases hmem with h1 | h2
      · simp [h1]
      · exact List.mem_cons_of_mem _ (ih h2)

theorem mem_keys_dictSet {items : Actions} {key k2 : String} {v : PendingAction}
    (h : k2 ∈ (dictSet items key v).map Prod.fst) :
    k2 ∈ items.map Prod.fst ∨ k2 = key := by
  induction items with
  | nil =>
    simp only [dictSet, List.map_cons, List.map_nil, List.mem_cons, List.not_mem_nil,
      or_false] at h
    exact Or.inr h
  | cons q rest ih =>
    obtain ⟨k, w⟩ := q
    by_cases hk : k = key
    · subst hk
      simp only [dictSet, eq_self_iff_true, if_true, List.map_cons, List.mem_cons] at h
      rcases h with h | h
      · exact Or.inr h
      · exact Or.inl (List.mem_cons_of_mem _ h)
    · simp only [dictSet, if_neg hk, List.map_cons, List.mem_cons] at h
      rcases h with h | h
      · exact Or.inl (by simp [h])
      · rcases ih h with h2 | h2
        · exact Or.inl (List.mem_cons_of_mem _ h2)
        · exact Or.inr h2

theorem nodup_keys_dictSet {items : Actions} (key : String) (v : PendingAction)
    (h : (items.map Prod.fst).Nodup) : ((dictSet items key v).map Prod.fst).Nodup := by
  induction items with
  | nil => simp [dictSet]
  | cons q rest ih =>
    obtain ⟨k, w⟩ := q
    simp only [List.map_cons, List.nodup_cons] at h
    by_cases hk : k = key
    · subst hk
      simpa [dictSet] using h
    · simp only [dictSet, if_neg hk, List.map_cons, List.nodup_cons]
      refine ⟨fun hmem => ?_, ih h.2⟩
      rcases mem_keys_dictSet hmem with h1 | h1
      · exact h.1 h1
      · exact hk h1

theorem dictDel_append {l1 : Actions} {id : String} {a : PendingAction} (l2 : Actions)
    (h : id ∉ l1.map Prod.fst) : dictDel (l1 ++ (id, a) :: l2) id = l1 ++ l2 := by
  induction l1 with
  | nil => simp [dictDel]
  | cons q rest ih =>
    obtain ⟨k, w⟩ := q
    simp only [List.map_cons, List.mem_cons] at h
    push_neg at h
    have hk : ¬ k = id := fun hh => h.1 hh.symm
    simp [dictDel, hk, ih h.2]

theorem dictGet_dictDel_self {items : Actions} {key : String}
    (hnodup : (items.map Prod.fst).Nodup) : dictGet (dictDel items key) key = none := by
  induction items with
  | nil => simp [dictDel, dictGet]
  | cons q rest ih =>
    obtain ⟨k, w⟩ := q
    simp only [List.map_cons, List.nodup_cons] at hnodup
    by_cases hk : k = key
    · subst hk
      simp only [dictDel, if_pos rfl]
      exact (dictGet_none_iff rest k).mpr hnodup.1
    · simp [dictDel, hk, dictGet, ih hnodup.2]

theorem scanMatch_none_iff (n t : String) (items : Actions) :
    ConfirmationStore.scanMatch n t items = none ↔
      ∀ p ∈ items, ¬(p.2.confirm_token = some t ∧ p.2.tool_name = n) := by
  induction items with
  | nil => simp [ConfirmationStore.scanMatch]
  | cons q rest ih =>
    obtain ⟨id, a⟩ := q
    by_cases hc : a.confirm_token = some t ∧ a.tool_name = n
    · simp only [ConfirmationStore.scanMatch, if_pos hc]
      constructor
      · intro h
        cases h
      · intro h
        exact absurd hc (h (id, a) (List.mem_cons_self _ _))
    · simp only [ConfirmationStore.scanMatch, if_neg hc, ih, List.mem_cons]
      constructor
      · rintro h p (rfl | hp)
        · exact hc
        · exact h p hp
      · intro h p hp
        exact h p (Or.inr hp)

theorem scanMatch_some {n t : String} {items : Actions} {id : String}
    {args : List (String × String)}
    (h : ConfirmationStore.scanMatch n t items = some (id, args)) :
    ∃ a l1 l2, items = l1 ++ (id, a) :: l2 ∧ a.confirm_token = some t ∧ a.tool_name = n ∧
      args = a.tool_args ∧ ∀ p ∈ l1, ¬(p.2.confirm_token = some t ∧ p.2.tool_name = n) := by
  induction items with
  | nil => simp [ConfirmationStore.scanMatch] at h
  | cons q rest ih =>
    obtain ⟨id0, a0⟩ := q
    by_cases hc : a0.confirm_token = some t ∧ a0.tool_name = n
    · simp only [ConfirmationStore.scanMatch, if_pos hc, Option.some.injEq,
        Prod.mk.injEq] at h
      obtain ⟨rfl, rfl⟩ := h
      exact ⟨a0, [], rest, rfl, hc.1, hc.2, rfl, by simp⟩
    · simp only [ConfirmationStore.scanMatch, if_neg hc] at h
      obtain ⟨a, l1, l2, heq, h1, h2, h3, h4⟩ := ih h
      refine ⟨a, (id0, a0) :: l1, l2, by simp [heq], h1, h2, h3, ?_⟩
      intro p hp
      rcases List.mem_cons.mp hp with rfl | hp
      · exact hc
      · exact h4 p hp

theorem tokCount_append (l1 l2 : Actions) (t : String) :
    tokCount (l1 ++ l2) t = tokCount l1 t + tokCount l2 t := by
  simp [tokCount, List.filter_append]

theorem tokCount_cons_match {id : String} {a : PendingAction} (l : Actions) {t : String}
    (h : a.confirm_token = some t) :
    tokCount ((id, a) :: l) t = tokCount l t + 1 := by
  simp [tokCount, List.filter_cons, h]

theorem tokCount_eq_zero {l : Actions} {t : String} (h : tokCount l t = 0) :
    ∀ p ∈ l, p.2.confirm_token ≠ some t := by
  intro p hp htok
  have hmem : p ∈ l.filter (fun p => decide (p.2.confirm_token = some t)) :=
    List.mem_filter.mpr ⟨hp, by simp [htok]⟩
  rw [tokCount, List.length_eq_zero] at h
  simp [h] at hmem

theorem validate_consume_unique {s s2 : ConfirmationStore} {n t : String}
    {args : List (String × String)}
    (hnodup : (s.actions.map Prod.fst).Nodup)
    (hcount : tokCount s.actions t ≤ 1)
    (hval : ConfirmationStore.validate_token s n t = (s2, some args)) :
    (∃ p ∈ s.actions, p.2.confirm_token = some t ∧ p.2.tool_name = n ∧ args = p.2.tool_args) ∧
    ∀ p ∈ s2.actions, p.2.confirm_token ≠ some t := by
  rcases hscan : ConfirmationStore.scanMatch n t s.actions with _ | ⟨id, args2⟩
  · rw [ConfirmationStore.validate_token, hscan] at hval
    simp at hval
  · rw [ConfirmationStore.validate_token, hscan] at hval
    simp only [Prod.mk.injEq, Option.some.injEq] at hval
    obtain ⟨hs2, hargs⟩ := hval
    obtain ⟨a, l1, l2, heq, h1, h2, h3, h4⟩ := scanMatch_some hscan
    have hmem : (id, a) ∈ s.actions := by
      rw [heq]
      exact List.mem_append_right _ (List.mem_cons_self _ _)
    have hid : id ∉ l1.map Prod.fst := by
      intro hin
      rw [heq, List.map_append, List.map_cons] at hnodup
      exact (List.nodup_append.mp hnodup).2.2 hin (by simp)
    have hdel : dictDel s.actions id = l1 ++ l2 := by
      rw [heq]
      exact dictDel_append l2 hid
    have hzero : tokCount l1 t = 0 ∧ tokCount l2 t = 0 := by
      rw [heq, tokCount_append, tokCount_cons_match l2 h1] at hcount
      omega
    constructor
    · exact ⟨(id, a), hmem, h1, h2, hargs ▸ h3⟩
    · intro p hp
      have hacts : s2.actions = l1 ++ l2 := by
        rw [← hs2]
        exact hdel
      rw [hacts] at hp
      rcases List.mem_append.mp hp with hp3 | hp3
      · exact tokCount_eq_zero hzero.1 p hp3
      · exact tokCount_eq_zero hzero.2 p hp3

/-- C1: validate_token succeeds at most once per token. Provided tokens are
not duplicated across entries (tokens are 32-byte secrets; at most one
entry holds any given one), a successful validation returns the tool_args
of an action matching the token and tool name and removes it, and any
second call with the same token (for any tool name) returns None. -/
theorem C1_token_single_use (s s2 : ConfirmationStore) (n t : String)
    (args : List (String × String))
    (hnodup : (s.actions.map Prod.fst).Nodup)
    (hcount : tokCount s.actions t ≤ 1)
    (hval : ConfirmationStore.validate_token s n t = (s2, some args)) :
    (∃ p ∈ s.actions, p.2.confirm_token = some t ∧ p.2.tool_name = n ∧ args = p.2.tool_args) ∧
    ∀ n2, (ConfirmationStore.validate_token s2 n2 t).2 = none := by
  obtain ⟨hex, hfree⟩ := validate_consume_unique hnodup hcount hval
  refine ⟨hex, fun n2 => ?_⟩
  have hscan : ConfirmationStore.scanMatch n2 t s2.actions = none :=
    (scanMatch_none_iff n2 t s2.actions).mpr (fun p hp hm => hfree p hp hm.1)
  rw [ConfirmationStore.validate_token, hscan]

/-- Witness for C1 on a concrete one-action store: the consumed token is
dead for every tool name afterwards. -/
theorem C1_token_single_use_witness :
    (∃ p ∈ wStoreTok.actions,
      p.2.confirm_token = some "tok" ∧ p.2.tool_name = "t" ∧ [("k", "v")] = p.2.tool_args) ∧
    ∀ n2, (ConfirmationStore.validate_token wEmptyTok n2 "tok").2 = none :=
  C1_token_single_use wStoreTok wEmptyTok "t" "tok" [("k", "v")]
    (by decide) (by decide) (by decide)

/-- C2 counterexample: the action of `wStoreTok` is expired at instant 20
(get reports it absent), yet validate_token still matches it and returns
its tool_args instead of the NotFound the claim requires. -/
theorem C2_counterexample :
    (ConfirmationStore.get 20 wStoreTok "A").2 = none ∧
    (ConfirmationStore.validate_token wStoreTok "t" "tok").2 = some [("k", "v")] := by
  decide

/-- C2 (amended): get treats an action with expires_at < now as
nonexistent, but validate_token scans every unswept entry with no expiry
check, so the token of an expired-but-unswept action still validates
(the result is not None). -/
theorem C2_expired_reads (now : Nat) (s : ConfirmationStore) (id n t : String)
    (a : PendingAction)
    (hget : dictGet s.actions id = some a) (hexp : a.expires_at < now) :
    (ConfirmationStore.get now s id).2 = none ∧
    (a.confirm_token = some t → a.tool_name = n →
      (ConfirmationStore.validate_token s n t).2 ≠ none) := by
  constructor
  · simp [ConfirmationStore.get, hget, hexp]
  · intro h1 h2 hnone
    rcases hscan : ConfirmationStore.scanMatch n t s.actions with _ | ⟨id2, args2⟩
    · exact (scanMatch_none_iff n t s.actions).mp hscan (id, a) (dictGet_mem hget) ⟨h1, h2⟩
    · rw [ConfirmationStore.validate_token, hscan] at hnone
      simp at hnone

/-- Witness for C2's amended statement at the concrete expired store. -/
theorem C2_expired_reads_witness :
    (ConfirmationStore.get 20 wStoreTok "A").2 = none ∧
    (wActTok.confirm_token = some "tok" → wActTok.tool_name = "t" →
      (ConfirmationStore.validate_token wStoreTok "t" "tok").2 ≠ none) :=
  C2_expired_reads 20 wStoreTok "A" "t" "tok" wActTok (by decide) (by decide)

/-- C3 counterexample: a dangerous action with Duo configured whose push is
denied: confirm returns the Duo error, but the action is NOT removed from
the store (it is still retrievable), and a later confirm with an approving
push still mints a token for it. -/
theorem C3_counterexample :
    ConfirmationStore.confirm 5 (.ok "deny" none) "tok" wStore "A" "u" =
      (wStore, none, some "Duo MFA verification failed or was denied.") ∧
    dictGet (ConfirmationStore.confirm 5 (.ok "deny" none) "tok" wStore "A" "u").1.actions "A" =
      some wAct ∧
    (ConfirmationStore.confirm 6 (.ok "allow" (some "x")) "tok2" wStore "A" "u").2.1 =
      some "tok2" := by
  decide

/-- C3 (amended): for a live action whose tier requires Duo, a
non-approved push (denial or provider error, fail-closed) makes confirm
return the MFA-denied outcome with no token, and leaves the store exactly
as it was: the action remains (with no token) rather than being removed. -/
theorem C3_mfa_denied (now : Nat) (d : DuoResponse) (tok : String)
    (s : ConfirmationStore) (id uid : String) (a : PendingAction)
    (hget : dictGet s.actions id = some a) (hlive : ¬ a.expires_at < now)
    (huser : a.user_id = uid) (htok : pyTruthy a.confirm_token = false)
    (hduo : ConfirmationStore.requires_duo s a.risk_level = true)
    (hdeny : (DuoAuthClient.send_push d).1 = false) :
    ConfirmationStore.confirm now d tok s id uid =
      (s, none, some "Duo MFA verification failed or was denied.") := by
  have hgeteq : ConfirmationStore.get now s id = (s, some a) := by
    simp [ConfirmationStore.get, hget, hlive]
  have hcheck : ConfirmationStore.confirmCheck now s id uid = (s, .proceed a true) := by
    simp [ConfirmationStore.confirmCheck, hgeteq, huser, htok, hduo]
  have hresume : ConfirmationStore.confirmResume (DuoAuthClient.send_push d) tok s id =
      (s, none, some "Duo MFA verification failed or was denied.") := by
    rcases hp : DuoAuthClient.send_push d with ⟨b, o⟩
    rw [hp] at hdeny
    simp at hdeny
    subst hdeny
    simp [ConfirmationStore.confirmResume]
  simp [ConfirmationStore.confirm, hcheck, hresume]

/-- Witness for C3's amended statement: provider error (exception path),
fail-closed, store unchanged. -/
theorem C3_mfa_denied_witness :
    ConfirmationStore.confirm 5 DuoResponse.error "tok" wStore "A" "u" =
      (wStore, none, some "Duo MFA verification failed or was denied.") :=
  C3_mfa_denied 5 .error "tok" wStore "A" "u" wAct
    (by decide) (by decide) (by decide) (by decide) (by decide) (by decide)

/-- C4: a confirm attempt by the requester on a live action whose
confirm_token is already set (Python-truthy) is rejected with the
already-confirmed outcome, for every possible Duo response (so no second
push is consulted), and the store — hence the stored token — is returned
unchanged. -/
theorem C4_already_confirmed (now : Nat) (d : DuoResponse) (tok : String)
    (s : ConfirmationStore) (id uid : String) (a : PendingAction)
    (hget : dictGet s.actions id = some a) (hlive : ¬ a.expires_at < now)
    (huser : a.user_id = uid) (htok : pyTruthy a.confirm_token = true) :
    ConfirmationStore.confirm now d tok s id uid =
      (s, none, some "Action already confirmed.") := by
  have hgeteq : ConfirmationStore.get now s id = (s, some a) := by
    simp [ConfirmationStore.get, hget, hlive]
  have hcheck : ConfirmationStore.confirmCheck now s id uid =
      (s, .err "Action already confirmed.") := by
    simp [ConfirmationStore.confirmCheck, hgeteq, huser, htok]
  simp [ConfirmationStore.confirm, hcheck]

/-- Witness for C4 on the confirmed fixture store, with an approving Duo
response that is nevertheless never consulted. -/
theorem C4_already_confirmed_witness :
    ConfirmationStore.confirm 5 (DuoResponse.ok "allow" (some "x")) "tok2" wStoreTok "A" "u" =
      (wStoreTok, none, some "Action already confirmed.") :=
  C4_already_confirmed 5 (.ok "allow" (some "x")) "tok2" wStoreTok "A" "u" wActTok
    (by decide) (by decide) (by decide) (by decide)

/-- C5: a confirm attempt on a live action by an identity other than the
requester returns the unauthorized outcome for every possible Duo response
(no push is sent), with no token and the store returned unchanged. -/
theorem C5_unauthorized (now : Nat) (d : DuoResponse) (tok : String)
    (s : ConfirmationStore) (id uid : String) (a : PendingAction)
    (hget : dictGet s.actions id = some a) (hlive : ¬ a.expires_at < now)
    (huser : a.user_id ≠ uid) :
    ConfirmationStore.confirm now d tok s id uid =
      (s, none, some "Only the original requester can confirm this action.") := by
  have hgeteq : ConfirmationStore.get now s id = (s, some a) := by
    simp [ConfirmationStore.get, hget, hlive]
  have hcheck : ConfirmationStore.confirmCheck now s id uid =
      (s, .err "Only the original requester can confirm this action.") := by
    simp [ConfirmationStore.confirmCheck, hgeteq, huser]
  simp [ConfirmationStore.confirm, hcheck]

/-- Witness for C5: user "z" cannot confirm the action of user "u". -/
theorem C5_unauthorized_witness :
    ConfirmationStore.confirm 5 (DuoResponse.ok "allow" none) "tok" wStore "A" "z" =
      (wStore, none, some "Only the original requester can confirm this action.") :=
  C5_unauthorized 5 (.ok "allow" none) "tok" wStore "A" "z" wAct
    (by decide) (by decide) (by decide)

/-- Helper: the value `create` computes, spelled out. -/
theorem create_eq (now : Nat) (genId : String) (s : ConfirmationStore) (toolN : String)
    (args : List (String × String)) (uid ch th ms : String) (rl : RiskLevel)
    (desc imp : String) :
    ConfirmationStore.create now genId s toolN args uid ch th ms rl desc imp =
      ({ (ConfirmationStore.cleanup_expired now s).1 with
          actions := dictSet (ConfirmationStore.cleanup_expired now s).1.actions genId
            (mkAction now genId toolN args uid ch th ms rl desc imp s.ttl) },
       mkAction now genId toolN args uid ch th ms rl desc imp s.ttl) := rfl

/-- C6: round trip of a moderate action with no Duo client: after create
and a confirm by the requester within the TTL, validate_token with a wrong
tool name returns None, validate_token with the right tool name returns
exactly the tool_args passed to create, and list_pending is empty
afterwards. -/
theorem C6_round_trip (ttl now1 now2 : Nat) (genId tok toolN wrongN : String)
    (args : List (String × String)) (uid ch th ms desc imp : String) (d : DuoResponse)
    (s1 : ConfirmationStore) (act : PendingAction)
    (s2 : ConfirmationStore) (tokRes err : Option String)
    (hwrong : wrongN ≠ toolN) (hfresh : now2 ≤ now1 + ttl)
    (hcreate : ConfirmationStore.create now1 genId
      { actions := [], ttl := ttl, duo_configured := false }
      toolN args uid ch th ms RiskLevel.moderate desc imp = (s1, act))
    (hconfirm : ConfirmationStore.confirm now2 d tok s1 act.action_id uid =
      (s2, tokRes, err)) :
    tokRes = some tok ∧
    (ConfirmationStore.validate_token s2 wrongN tok).2 = none ∧
    (ConfirmationStore.validate_token s2 toolN tok).2 = some args ∧
    (ConfirmationStore.list_pending now2
      (ConfirmationStore.validate_token s2 toolN tok).1 none).2 = [] := by
  rw [create_eq] at hcreate
  simp only [Prod.mk.injEq] at hcreate
  obtain ⟨hs1, hact⟩ := hcreate
  subst hact
  have hs1a : s1 = { actions := [(genId, mkAction now1 genId toolN args uid ch th ms
      RiskLevel.moderate desc imp ttl)], ttl := ttl, duo_configured := false } := by
    rw [← hs1]
    rfl
  subst hs1a
  set a0 := mkAction now1 genId toolN args uid ch th ms RiskLevel.moderate desc imp ttl
    with ha0
  have hget : dictGet [(genId, a0)] genId = some a0 := by simp [dictGet]
  have hlive : ¬ a0.expires_at < now2 := by
    simp only [ha0, mkAction]
    omega
  have hgeteq : ConfirmationStore.get now2
      { actions := [(genId, a0)], ttl := ttl, duo_configured := false } genId =
      ({ actions := [(genId, a0)], ttl := ttl, duo_configured := false }, some a0) := by
    simp [ConfirmationStore.get, hget, hlive]
  have huser : a0.user_id = uid := rfl
  have htok : pyTruthy a0.confirm_token = false := rfl
  have hduo : ConfirmationStore.requires_duo
      { actions := [(genId, a0)], ttl := ttl, duo_configured := false }
      a0.risk_level = false := rfl
  have haid : a0.action_id = genId := rfl
  have hcheck : ConfirmationStore.confirmCheck now2
      { actions := [(genId, a0)], ttl := ttl, duo_configured := false } genId uid =
      ({ actions := [(genId, a0)], ttl := ttl, duo_configured := false },
       .proceed a0 false) := by
    simp [ConfirmationStore.confirmCheck, hgeteq, huser, htok, hduo]
  rw [haid] at hconfirm
  have hconf2 : ConfirmationStore.confirm now2 d tok
      { actions := [(genId, a0)], ttl := ttl, duo_configured := false } genId uid =
      ({ actions := [(genId, tokStamped a0 tok)], ttl := ttl, duo_configured := false },
       some tok, none) := by
    simp only [ConfirmationStore.confirm, hcheck]
    simp [dictSet, tokStamped]
  rw [hconf2] at hconfirm
  simp only [Prod.mk.injEq] at hconfirm
  obtain ⟨hs2, htokRes, herr⟩ := hconfirm
  subst hs2
  subst htokRes
  have htool : a0.tool_name = toolN := rfl
  have hargs2 : a0.tool_args = args := rfl
  refine ⟨rfl, ?_, ?_, ?_⟩
  · have hcond : ¬ ((tokStamped a0 tok).confirm_token = some tok ∧
        (tokStamped a0 tok).tool_name = wrongN) := by
      intro hc
      have : a0.tool_name = wrongN := hc.2
      rw [htool] at this
      exact hwrong this.symm
    simp [ConfirmationStore.validate_token, ConfirmationStore.scanMatch, hcond]
  · simp [ConfirmationStore.validate_token, ConfirmationStore.scanMatch,
      tokStamped, dictDel, htool, hargs2]
  · have hval : (ConfirmationStore.validate_token
        { actions := [(genId, tokStamped a0 tok)], ttl := ttl, duo_configured := false }
        toolN tok).1 =
        { actions := [], ttl := ttl, duo_configured := false } := by
      simp [ConfirmationStore.validate_token, ConfirmationStore.scanMatch,
        tokStamped, dictDel, htool, hargs2]
    rw [hval]
    simp [ConfirmationStore.list_pending, ConfirmationStore.cleanup_expired]

/-- Witness for C6 at concrete values (TTL 5, create at 0, confirm at 3). -/
theorem C6_round_trip_witness :
    (some "tok" : Option String) = some "tok" ∧
    (ConfirmationStore.validate_token wModStore2 "w" "tok").2 = none ∧
    (ConfirmationStore.validate_token wModStore2 "t" "tok").2 = some [("k", "v")] ∧
    (ConfirmationStore.list_pending 3
      (ConfirmationStore.validate_token wModStore2 "t" "tok").1 none).2 = [] :=
  C6_round_trip 5 0 3 "A" "tok" "t" "w" [("k", "v")] "u" "c" "h" "m" "d" "i"
    DuoResponse.error wModStore1 wModAct wModStore2 (some "tok") none
    (by decide) (by decide) (by decide) (by decide)

/-- C7 counterexample: the continuation of confirm after the awaited push
does NOT re-check the action's state before mutating. Concretely: the
pre-push phase passes at instant 0; the action is expired by the time the
push resolves (get at 20 reports it absent); yet the resume phase still
mints and returns a token, and that token remains redeemable by
validate_token afterwards — refuting the claimed re-check on re-acquire. -/
theorem C7_counterexample :
    ConfirmationStore.confirmCheck 0 wStore "A" "u" = (wStore, .proceed wAct true) ∧
    (ConfirmationStore.get 20 wStore "A").2 = none ∧
    (ConfirmationStore.confirmResume (true, some "x") "tok" wStore "A").2.1 = some "tok" ∧
    (ConfirmationStore.validate_token
      (ConfirmationStore.confirmResume (true, some "x") "tok" wStore "A").1
      "t" "tok").2 = some [("k", "v")] := by
  decide

/-- C7 (amended): within the single event loop the store operations are
synchronous and hence serialized, but the post-push continuation of
confirm applies its mutation with no guard at all — for every action
present under the id (expired or not) an approved push stamps the Duo
fields and mints the token; and two serialized validate_token calls on the
same (unique) valid token have exactly one winner: the first succeeds and
the second returns None for every tool name. -/
theorem C7_resume_and_race (pushTxid : Option String) (tok : String)
    (s s2 : ConfirmationStore) (id n n2 t : String) (a : PendingAction)
    (args : List (String × String)) :
    (dictGet s.actions id = some a →
      ConfirmationStore.confirmResume (true, pushTxid) tok s id =
        ({ s with actions := dictSet s.actions id (duoStamped a pushTxid tok) },
         some tok, none)) ∧
    ((s.actions.map Prod.fst).Nodup → tokCount s.actions t ≤ 1 →
      ConfirmationStore.validate_token s n t = (s2, some args) →
      (ConfirmationStore.validate_token s2 n2 t).2 = none) := by
  constructor
  · intro hget
    simp [ConfirmationStore.confirmResume, hget, duoStamped]
  · intro h1 h2 h3
    obtain ⟨-, hfree⟩ := validate_consume_unique h1 h2 h3
    have hscan : ConfirmationStore.scanMatch n2 t s2.actions = none :=
      (scanMatch_none_iff n2 t s2.actions).mpr (fun p hp hm => hfree p hp hm.1)
    rw [ConfirmationStore.validate_token, hscan]

/-- Witness for C7's amended statement: a concrete blind resume and a
concrete decided race. -/
theorem C7_resume_and_race_witness :
    ConfirmationStore.confirmResume (true, some "x") "tok2" wStoreTok "A" =
      ({ wStoreTok with
          actions := dictSet wStoreTok.actions "A" (duoStamped wActTok (some "x") "tok2") },
       some "tok2", none) ∧
    (ConfirmationStore.validate_token wEmptyTok "w" "tok").2 = none :=
  ⟨(C7_resume_and_race (some "x") "tok2" wStoreTok wEmptyTok "A" "t" "w" "tok" wActTok
      [("k", "v")]).1 (by decide),
   (C7_resume_and_race (some "x") "tok2" wStoreTok wEmptyTok "A" "t" "w" "tok" wActTok
      [("k", "v")]).2 (by decide) (by decide) (by decide)⟩

/-- C8: requires_duo holds exactly when a Duo client is configured and the
tier is dangerous or critical; and when no Duo client is configured,
confirm of a live unconfirmed action by its requester mints the token for
every possible Duo response (confirmation-only fallback, no push), for any
tier. -/
theorem C8_step_up_policy (s : ConfirmationStore) (r : RiskLevel) (now : Nat)
    (d : DuoResponse) (tok id uid : String) (a : PendingAction) :
    (ConfirmationStore.requires_duo s r = true ↔
      s.duo_configured = true ∧ (r = RiskLevel.dangerous ∨ r = RiskLevel.critical)) ∧
    (s.duo_configured = false → dictGet s.actions id = some a → ¬ a.expires_at < now →
      a.user_id = uid → pyTruthy a.confirm_token = false →
      ConfirmationStore.confirm now d tok s id uid =
        ({ s with actions := dictSet s.actions id (tokStamped a tok) },
         some tok, none)) := by
  constructor
  · simp [ConfirmationStore.requires_duo]
  · intro hdc hget hlive huser htok
    have hgeteq : ConfirmationStore.get now s id = (s, some a) := by
      simp [ConfirmationStore.get, hget, hlive]
    have hduo : ConfirmationStore.requires_duo s a.risk_level = false := by
      simp [ConfirmationStore.requires_duo, hdc]
    have hcheck : ConfirmationStore.confirmCheck now s id uid =
        (s, .proceed a false) := by
      simp [ConfirmationStore.confirmCheck, hgeteq, huser, htok, hduo]
    simp [ConfirmationStore.confirm, hcheck, tokStamped]

/-- Witness for C8: the dangerous fixture action is confirmed without any
push when no Duo client is configured. -/
theorem C8_step_up_policy_witness :
    (ConfirmationStore.requires_duo wStoreNoDuo RiskLevel.critical = true ↔
      wStoreNoDuo.duo_configured = true ∧
        (RiskLevel.critical = RiskLevel.dangerous ∨
         RiskLevel.critical = RiskLevel.critical)) ∧
    ConfirmationStore.confirm 5 DuoResponse.error "tok" wStoreNoDuo "A" "u" =
      ({ wStoreNoDuo with actions := dictSet wStoreNoDuo.actions "A" (tokStamped wAct "tok") },
       some "tok", none) :=
  ⟨(C8_step_up_policy wStoreNoDuo .critical 5 .error "tok" "A" "u" wAct).1,
   (C8_step_up_policy wStoreNoDuo .critical 5 .error "tok" "A" "u" wAct).2
     (by decide) (by decide) (by decide) (by decide) (by decide)⟩

/-- C9 counterexample: create performs no collision check at all: a
generated id equal to a live entry's id silently replaces that live entry
(the store still has one entry, now for the new tool), destroying the old
action — its previously valid token no longer validates. -/
theorem C9_counterexample :
    (ConfirmationStore.create 0 "A" wStoreTok "t2" [] "u" "c" "h" "m"
      RiskLevel.moderate "d" "i").1.actions.length = 1 ∧
    (dictGet (ConfirmationStore.create 0 "A" wStoreTok "t2" [] "u" "c" "h" "m"
      RiskLevel.moderate "d" "i").1.actions "A").map PendingAction.tool_name = some "t2" ∧
    (ConfirmationStore.validate_token (ConfirmationStore.create 0 "A" wStoreTok "t2" []
      "u" "c" "h" "m" RiskLevel.moderate "d" "i").1 "t" "tok").2 = none := by
  decide

/-- C9 (amended): create sweeps expired entries first and then inserts the
new action under the generated id with no collision retry: every surviving
entry other than the new one is unexpired, the new action is retrievable
under the generated id, and key uniqueness is preserved — but only because
a colliding live entry would have been replaced, not regenerated around. -/
theorem C9_create_fresh (now : Nat) (genId : String) (s : ConfirmationStore)
    (toolN : String) (args : List (String × String)) (uid ch th ms : String)
    (rl : RiskLevel) (desc imp : String)
    (hnodup : (s.actions.map Prod.fst).Nodup) :
    (∀ p ∈ (ConfirmationStore.create now genId s toolN args uid ch th ms rl desc imp).1.actions,
      p.1 ≠ genId → ¬ p.2.expires_at < now) ∧
    dictGet (ConfirmationStore.create now genId s toolN args uid ch th ms rl desc imp).1.actions
      genId =
      some (ConfirmationStore.create now genId s toolN args uid ch th ms rl desc imp).2 ∧
    ((ConfirmationStore.create now genId s toolN args uid ch th ms rl desc imp).1.actions.map
      Prod.fst).Nodup := by
  rw [create_eq]
  have hclean : (ConfirmationStore.cleanup_expired now s).1.actions =
      s.actions.filter (fun p => !(decide (p.2.expires_at < now))) := rfl
  refine ⟨?_, ?_, ?_⟩
  · intro p hp hne
    have hp2 : p ∈ (ConfirmationStore.cleanup_expired now s).1.actions :=
      mem_dictSet_ne hp hne
    rw [hclean] at hp2
    have := (List.mem_filter.mp hp2).2
    simpa using this
  · exact dictGet_dictSet_self _ _ _
  · apply nodup_keys_dictSet
    rw [hclean]
    exact hnodup.sublist (List.Sublist.map Prod.fst (List.filter_sublist s.actions))

/-- Witness for C9's amended statement: creating under fresh id "B" in the
one-action fixture store. -/
theorem C9_create_fresh_witness :
    (∀ p ∈ (ConfirmationStore.create 0 "B" wStore "t2" [] "u" "c" "h" "m"
      RiskLevel.moderate "d" "i").1.actions,
      p.1 ≠ "B" → ¬ p.2.expires_at < 0) ∧
    dictGet (ConfirmationStore.create 0 "B" wStore "t2" [] "u" "c" "h" "m"
      RiskLevel.moderate "d" "i").1.actions "B" =
      some (ConfirmationStore.create 0 "B" wStore "t2" [] "u" "c" "h" "m"
        RiskLevel.moderate "d" "i").2 ∧
    ((ConfirmationStore.create 0 "B" wStore "t2" [] "u" "c" "h" "m"
      RiskLevel.moderate "d" "i").1.actions.map Prod.fst).Nodup :=
  C9_create_fresh 0 "B" wStore "t2" [] "u" "c" "h" "m" RiskLevel.moderate "d" "i"
    (by decide)

/-- C10: denial is not masked by expiry: for an entry whose expires_at is
past but which is still unswept, deny returns true and removes it, even
though get at the same instant reports it as not found. -/
theorem C10_deny_expired (now : Nat) (s : ConfirmationStore) (id : String)
    (a : PendingAction)
    (hnodup : (s.actions.map Prod.fst).Nodup)
    (hget : dictGet s.actions id = some a) (hexp : a.expires_at < now) :
    (ConfirmationStore.deny s id).2 = true ∧
    dictGet (ConfirmationStore.deny s id).1.actions id = none ∧
    (ConfirmationStore.get now s id).2 = none := by
  refine ⟨?_, ?_, ?_⟩
  · simp [ConfirmationStore.deny, hget]
  · have hd : (ConfirmationStore.deny s id).1.actions = dictDel s.actions id := by
      simp [ConfirmationStore.deny, hget]
    rw [hd]
    exact dictGet_dictDel_self hnodup
  · simp [ConfirmationStore.get, hget, hexp]

/-- Witness for C10 on the expired fixture entry at instant 20. -/
theorem C10_deny_expired_witness :
    (ConfirmationStore.deny wStoreTok "A").2 = true ∧
    dictGet (ConfirmationStore.deny wStoreTok "A").1.actions "A" = none ∧
    (ConfirmationStore.get 20 wStoreTok "A").2 = none :=
  C10_deny_expired 20 wStoreTok "A" wActTok (by decide) (by decide) (by decide)

end NConf
